import Mathlib

/-!
Shallow embedding of the speed-cloudflare-cli statistics engine (src/stats.js)
and measurement drivers (measureLatency / measureDownload / measureUpload).

Modelling conventions:
- JavaScript numbers are modelled as exact rationals (ℚ).
- `average([])` evaluates `0 / 0`, which is NaN in JavaScript; quantities that
  can be NaN are modelled as `Option ℚ` with `none` standing for NaN.
- `Array.prototype.sort` mutates the array in place.  `median` and `quartile`
  are therefore embedded in state-passing style: `medianSt` / `quartileSt`
  return both the numeric result and the array contents after the call, and
  the plain `median` / `quartile` are the first projections.
- A driver loop that issues `iterationCount` requests, each of which either
  resolves with a timing record or rejects, is embedded as a function over the
  list of per-iteration outcomes (`Option TimingRecord`, `none` = failure).
-/

namespace SpeedTest

/-- `values.sort((a, b) => a - b)` : ascending numeric sort. -/
def sortAsc (values : List ℚ) : List ℚ := values.insertionSort (· ≤ ·)

/-- `average(values)` (src/stats.js lines 1-9): `total / values.length` where
`total` is the sum of the elements.  On the empty list this is `0 / 0`, i.e.
NaN, modelled as `none`. -/
def average? (values : List ℚ) : Option ℚ :=
  if values.length = 0 then none else some (values.sum / (values.length : ℚ))

/-- `median(values)` (src/stats.js lines 11-19) in state-passing style:
`half = Math.floor(values.length / 2)`; the array is sorted in place; odd
length returns `values[half]`, even length returns
`(values[half - 1] + values[half]) / 2`.  The second component is the array
contents after the call (the sorted array). -/
def medianSt (values : List ℚ) : ℚ × List ℚ :=
  let half := values.length / 2
  let s := sortAsc values
  (if values.length % 2 ≠ 0 then s.getD half 0
   else (s.getD (half - 1) 0 + s.getD half 0) / 2, s)

/-- The numeric result of `median(values)`. -/
def median (values : List ℚ) : ℚ := (medianSt values).1

/-- `quartile(values, percentile)` (src/stats.js lines 21-32) in state-passing
style: the array is sorted in place; `pos = (values.length - 1) * percentile`;
`base = Math.floor(pos)`; `rest = pos - base`; if `values[base + 1]` is
defined (the integer index `base + 1` is within bounds) the result is
`values[base] + rest * (values[base + 1] - values[base])`, else
`values[base]`. -/
def quartileSt (values : List ℚ) (percentile : ℚ) : ℚ × List ℚ :=
  let s := sortAsc values
  let pos : ℚ := ((values.length : ℚ) - 1) * percentile
  let base : ℤ := ⌊pos⌋
  let rest : ℚ := pos - (base : ℚ)
  (if 0 ≤ base + 1 ∧ base + 1 < (s.length : ℤ) then
     s.getD base.toNat 0 + rest * (s.getD (base + 1).toNat 0 - s.getD base.toNat 0)
   else s.getD base.toNat 0, s)

/-- The numeric result of `quartile(values, percentile)`. -/
def quartile (values : List ℚ) (percentile : ℚ) : ℚ := (quartileSt values percentile).1

/-- `_jitters(values)` (src/stats.js lines 34-43): the list of absolute
distances between consecutive measurements,
`|values[i] - values[i+1]|` for `i = 0 .. values.length - 2`. -/
def jitters : List ℚ → List ℚ
  | a :: b :: rest => |a - b| :: jitters (b :: rest)
  | _ => []

/-- `jitter(values)` (src/stats.js lines 45-47): `average(_jitters(values))`.
For fewer than two samples `_jitters` is empty and the result is NaN. -/
def jitter? (values : List ℚ) : Option ℚ := average? (jitters values)

/-- `jitterP90(values)` (src/stats.js lines 49-51). -/
def jitterP90 (values : List ℚ) : ℚ := quartile (jitters values) (90 / 100)

/-- `jitterP95(values)` (src/stats.js lines 53-55). -/
def jitterP95 (values : List ℚ) : ℚ := quartile (jitters values) (95 / 100)

/-- `p90(values)` (src/stats.js lines 57-59). -/
def p90 (values : List ℚ) : ℚ := quartile values (90 / 100)

/-- `p95(values)` (src/stats.js lines 61-63). -/
def p95 (values : List ℚ) : ℚ := quartile values (95 / 100)

/-- The names assigned on `exports` by src/stats.js (lines 65-72). -/
def statsExports : List String :=
  ["average", "median", "quartile", "jitter", "jitterP90", "jitterP95", "p90", "p95"]

/-- The `stats.*` members that `measureLatency`'s summary array reads
(main file, lines 166-176): `average`, `median`, `jitter`, `jitterP95`,
`jitterP99`, `p95`, `p99`. -/
def measureLatencySummaryCalls : List String :=
  ["average", "median", "jitter", "jitterP95", "jitterP99", "p95", "p99"]

/-- The timing tuple resolved by `request` (main file, lines 73-121):
indices 0..6 are started, dnsLookup, tcpHandshake, sslHandshake, ttfb, ended,
and the parsed `server-timing` value.  The dns/tcp/ssl timestamps stay
`undefined` when their socket events do not fire. -/
structure TimingRecord where
  started : ℚ
  dnsLookup : Option ℚ
  tcpHandshake : Option ℚ
  sslHandshake : Option ℚ
  ttfb : ℚ
  ended : ℚ
  serverTiming : ℚ
deriving DecidableEq

/-- The latency sample pushed by `measureLatency` for a successful request
(main file, line 158): `response[4] - response[0] - response[6]`, i.e.
TTFB minus start minus the server-reported processing time. -/
def latencySample (r : TimingRecord) : ℚ := r.ttfb - r.started - r.serverTiming

/-- `measureSpeed(bytes, duration)` (main file, lines 147-149):
`(bytes * 8) / (duration / 1000) / 1e6`. -/
def measureSpeed (bytes duration : ℚ) : ℚ := bytes * 8 / (duration / 1000) / 1000000

/-- The throughput sample pushed by `measureDownload` (main file, lines
184-187): `measureSpeed(bytes, response[5] - response[4])` (transfer phase
wall-clock time). -/
def downloadSample (bytes : ℚ) (r : TimingRecord) : ℚ := measureSpeed bytes (r.ended - r.ttfb)

/-- The throughput sample pushed by `measureUpload` (main file, lines
202-204): `measureSpeed(bytes, response[6])` (the server-reported processing
time from the timing record). -/
def uploadSample (bytes : ℚ) (r : TimingRecord) : ℚ := measureSpeed bytes r.serverTiming

/-- The sequential driver loop shared by the three drivers: for each
iteration outcome in order, a success (`some r`) appends exactly one sample
`f r`, a failure (`none`) is logged and skipped. -/
def collectSamples (f : TimingRecord → ℚ) : List (Option TimingRecord) → List ℚ
  | [] => []
  | some r :: rest => f r :: collectSamples f rest
  | none :: rest => collectSamples f rest

/-- The measurements series accumulated by `measureLatency`'s loop (main
file, lines 151-164) over the given per-iteration outcomes. -/
def measureLatencySeries (outcomes : List (Option TimingRecord)) : List ℚ :=
  collectSamples latencySample outcomes

/-- The series returned by `measureDownload(bytes, _)` (main file, lines
179-195) over the given per-iteration outcomes. -/
def measureDownload (bytes : ℚ) (outcomes : List (Option TimingRecord)) : List ℚ :=
  collectSamples (downloadSample bytes) outcomes

/-- The series returned by `measureUpload(bytes, _)` (main file, lines
197-213) over the given per-iteration outcomes. -/
def measureUpload (bytes : ℚ) (outcomes : List (Option TimingRecord)) : List ℚ :=
  collectSamples (uploadSample bytes) outcomes

/-- The contents of the `measurements` array at the moment
`stats.jitter(measurements)` is evaluated inside `measureLatency`'s summary
array (main file, line 171): the array literal is evaluated left to right,
so `stats.median(measurements)` (line 170) has already sorted the shared
array in place. -/
def measurementsAtJitterCall (measurements : List ℚ) : List ℚ := (medianSt measurements).2

/-- The linear quantile method as the specification states it: with
`pos = (n - 1) * q`, `base = floor pos`, `frac = pos - base`, the result is
`sorted[base]` when `base` is the last index and
`sorted[base] + frac * (sorted[base + 1] - sorted[base])` otherwise. -/
def quartileLinearSpec (xs : List ℚ) (q : ℚ) : ℚ :=
  let s := sortAsc xs
  let pos : ℚ := ((xs.length : ℚ) - 1) * q
  let base : ℕ := (⌊pos⌋).toNat
  let frac : ℚ := pos - ((⌊pos⌋ : ℤ) : ℚ)
  if base = xs.length - 1 then s.getD base 0
  else s.getD base 0 + frac * (s.getD (base + 1) 0 - s.getD base 0)

/-- One hundred identical successful latency iterations, each with
`firstByte - start = 52` ms and a server-reported processing time of 2 ms. -/
def latencyScenario : List (Option TimingRecord) :=
  List.replicate 100 (some ⟨0, none, none, none, 52, 60, 2⟩)

/-- Ten driver iterations of which exactly three fail. -/
def mixedOutcomes : List (Option TimingRecord) :=
  [some ⟨0, none, none, none, 1, 2, 3⟩, some ⟨0, none, none, none, 1, 2, 3⟩, none,
   some ⟨0, none, none, none, 1, 2, 3⟩, none, some ⟨0, none, none, none, 1, 2, 3⟩,
   some ⟨0, none, none, none, 1, 2, 3⟩, none, some ⟨0, none, none, none, 1, 2, 3⟩,
   some ⟨0, none, none, none, 1, 2, 3⟩]

/-! Basic facts about the ascending sort. -/

lemma sortAsc_perm (values : List ℚ) : (sortAsc values).Perm values :=
  List.perm_insertionSort _ _

lemma sortAsc_sorted (values : List ℚ) : (sortAsc values).Sorted (· ≤ ·) :=
  List.sorted_insertionSort _ _

lemma sortAsc_length (values : List ℚ) : (sortAsc values).length = values.length :=
  List.length_insertionSort _ _

lemma sortAsc_eq_of_perm {xs ys : List ℚ} (h : xs.Perm ys) : sortAsc xs = sortAsc ys :=
  List.eq_of_perm_of_sorted ((sortAsc_perm xs).trans (h.trans (sortAsc_perm ys).symm))
    (sortAsc_sorted xs) (sortAsc_sorted ys)

lemma sorted_getD_zero_le {s : List ℚ} (hs : s.Sorted (· ≤ ·)) {x : ℚ} (hx : x ∈ s) :
    s.getD 0 0 ≤ x := by
  cases s with
  | nil => cases hx
  | cons a t =>
    rcases List.mem_cons.mp hx with rfl | hxt
    · simp
    · simpa using (List.sorted_cons.mp hs).1 x hxt

lemma sorted_le_getD_last :
    ∀ (s : List ℚ), s.Sorted (· ≤ ·) → ∀ x ∈ s, x ≤ s.getD (s.length - 1) 0
  | [], _, x, hx => absurd hx (List.not_mem_nil x)
  | [a], _, x, hx => by
    simp at hx
    simp [hx]
  | a :: b :: u, hs, x, hx => by
    have h1 := List.sorted_cons.mp hs
    have htail := sorted_le_getD_last (b :: u) h1.2
    rcases List.mem_cons.mp hx with rfl | hxt
    · have hb := htail b (List.mem_cons_self b u)
      have hab : x ≤ b := h1.1 b (List.mem_cons_self b u)
      simpa using le_trans hab (by simpa using hb)
    · have hx2 := htail x hxt
      simpa using (by simpa using hx2 : x ≤ (b :: u).getD u.length 0)

lemma getD_mem_of_lt {s : List ℚ} {i : ℕ} (h : i < s.length) : s.getD i 0 ∈ s := by
  rw [List.getD_eq_getElem s 0 h]
  exact s.getElem_mem h

lemma sorted_replicate (n : ℕ) (x : ℚ) : (List.replicate n x).Sorted (· ≤ ·) :=
  List.pairwise_replicate.mpr (Or.inr le_rfl)

lemma getD_replicate {n i : ℕ} (x : ℚ) (h : i < n) : (List.replicate n x).getD i 0 = x := by
  rw [List.getD_eq_getElem _ 0 (by simpa using h)]
  simp

/-! Facts about the driver loop and the jitter sequence. -/

lemma collectSamples_eq_filterMap (f : TimingRecord → ℚ) :
    ∀ outcomes : List (Option TimingRecord),
      collectSamples f outcomes = (outcomes.filterMap id).map f
  | [] => rfl
  | some r :: rest => by
    simp [collectSamples, collectSamples_eq_filterMap f rest]
  | none :: rest => by
    simp [collectSamples, collectSamples_eq_filterMap f rest]

lemma countP_isSome_add_isNone :
    ∀ outcomes : List (Option TimingRecord),
      outcomes.countP (fun o => o.isSome) + outcomes.countP (fun o => o.isNone) =
        outcomes.length
  | [] => rfl
  | o :: rest => by
    have ih := countP_isSome_add_isNone rest
    cases o <;> simp [List.countP_cons] <;> omega

lemma length_filterMap_id :
    ∀ outcomes : List (Option TimingRecord),
      (outcomes.filterMap id).length = outcomes.countP (fun o => o.isSome)
  | [] => rfl
  | o :: rest => by
    have ih := length_filterMap_id rest
    cases o <;> simp [List.countP_cons, ih]

lemma collectSamples_const (f : TimingRecord → ℚ) (c : ℚ) :
    ∀ outcomes : List (Option TimingRecord),
      (∀ o ∈ outcomes, ∃ r, o = some r ∧ f r = c) →
      collectSamples f outcomes = List.replicate outcomes.length c
  | [], _ => rfl
  | o :: rest, h => by
    obtain ⟨r, rfl, hfr⟩ := h o (List.mem_cons_self o rest)
    simp [collectSamples, List.replicate_succ, hfr,
      collectSamples_const f c rest (fun x hx => h x (List.mem_cons_of_mem _ hx))]

lemma jitters_replicate (x : ℚ) :
    ∀ n : ℕ, jitters (List.replicate n x) = List.replicate (n - 1) 0
  | 0 => rfl
  | 1 => rfl
  | n + 2 => by
    have ih := jitters_replicate x (n + 1)
    have h2 : List.replicate (n + 2) x = x :: List.replicate (n + 1) x := rfl
    have h1 : List.replicate (n + 1) x = x :: List.replicate n x := rfl
    rw [h2, h1, jitters, ← h1, ih]
    simp [List.replicate_succ]

lemma jitters_eq_range :
    ∀ xs : List ℚ,
      jitters xs = (List.range (xs.length - 1)).map (fun i => |xs.getD i 0 - xs.getD (i + 1) 0|)
  | [] => rfl
  | [a] => rfl
  | a :: b :: t => by
    have ih := jitters_eq_range (b :: t)
    rw [jitters, ih]
    rw [show (a :: b :: t : List ℚ).length - 1 = ((b :: t : List ℚ).length - 1) + 1 by simp]
    rw [List.range_succ_eq_map]
    simp [List.map_map, Function.comp_def]

lemma average?_replicate_zero {n : ℕ} (h : 0 < n) :
    average? (List.replicate n (0 : ℚ)) = some 0 := by
  have hne : ¬n = 0 := by omega
  simp [average?, hne, List.sum_replicate]

lemma median_replicate {n : ℕ} (h : 0 < n) (x : ℚ) : median (List.replicate n x) = x := by
  have hs : sortAsc (List.replicate n x) = List.replicate n x :=
    List.Sorted.insertionSort_eq (sorted_replicate n x)
  simp only [median, medianSt, hs, List.length_replicate]
  split_ifs with hpar
  · exact getD_replicate x (Nat.div_lt_self h (by norm_num))
  · rw [getD_replicate x (Nat.div_lt_self h (by norm_num)),
      getD_replicate x (lt_of_le_of_lt (Nat.sub_le _ _) (Nat.div_lt_self h (by norm_num)))]
    ring

lemma quartile_zero {xs : List ℚ} (h : xs ≠ []) : quartile xs 0 = (sortAsc xs).getD 0 0 := by
  have hn : 0 < xs.length := List.length_pos.mpr h
  simp only [quartile, quartileSt, mul_zero, Int.floor_zero, Int.cast_zero, sub_zero,
    Int.toNat_zero, zero_add, sortAsc_length]
  split_ifs with hc
  · simp
  · rfl

lemma quartile_one {xs : List ℚ} (h : xs ≠ []) :
    quartile xs 1 = (sortAsc xs).getD (xs.length - 1) 0 := by
  have hn : 0 < xs.length := List.length_pos.mpr h
  simp only [quartile, quartileSt, mul_one, sortAsc_length]
  have hfl : ⌊((xs.length : ℚ) - 1)⌋ = (xs.length : ℤ) - 1 := by
    rw [show ((xs.length : ℚ) - 1) = (((xs.length : ℤ) - 1 : ℤ) : ℚ) by push_cast; ring,
      Int.floor_intCast]
  rw [hfl]
  have hcond : ¬(0 ≤ (xs.length : ℤ) - 1 + 1 ∧ (xs.length : ℤ) - 1 + 1 < (xs.length : ℤ)) := by
    omega
  rw [if_neg hcond]
  congr 1
  omega

/-! Claim theorems. -/

/-- C1: `measureLatency`'s summary array asks the statistics module for
`jitterP99` and `p99`, but src/stats.js exports neither (it exports
`jitterP90`/`p90` instead), while the other five statistics it calls are
exported.  The nine-entry summary report the claim describes is therefore
never produced: the call `stats.jitterP99(measurements)` is a call of an
undefined member. -/
theorem C1_summary_requires_missing_exports :
    ("jitterP99" ∈ measureLatencySummaryCalls ∧ "p99" ∈ measureLatencySummaryCalls) ∧
    ("jitterP99" ∉ statsExports ∧ "p99" ∉ statsExports) ∧
    ("average" ∈ statsExports ∧ "median" ∈ statsExports ∧ "jitter" ∈ statsExports ∧
      "jitterP95" ∈ statsExports ∧ "p95" ∈ statsExports) := by
  decide

/-- C2: jitter is NOT invariant under a prior `median`/`quartile` call on the
same array: both sort the array in place, and `measureLatency` evaluates
`stats.median(measurements)` before `stats.jitter(measurements)`, so jitter is
computed over the sorted series.  On the series `[3, 1, 2]` the
collection-order jitter is `3/2` while the jitter observed after the in-place
sort is `1`. -/
theorem C2_jitter_changed_by_prior_sort :
    jitter? (measurementsAtJitterCall [3, 1, 2]) ≠ jitter? [3, 1, 2] ∧
    jitter? ((quartileSt [3, 1, 2] (1 / 2)).2) ≠ jitter? [3, 1, 2] ∧
    jitter? [3, 1, 2] = some (3 / 2) ∧
    jitter? (measurementsAtJitterCall [3, 1, 2]) = some 1 := by
  have h1 : measurementsAtJitterCall [3, 1, 2] = [1, 2, 3] := by decide
  have h2 : (quartileSt [3, 1, 2] (1 / 2)).2 = [1, 2, 3] := by decide
  have h3 : jitter? [3, 1, 2] = some (3 / 2) := by norm_num [jitter?, average?, jitters]
  have h4 : jitter? ([1, 2, 3] : List ℚ) = some 1 := by norm_num [jitter?, average?, jitters]
  rw [h1, h2, h3, h4]
  refine ⟨?_, ?_, rfl, rfl⟩ <;> · intro hcon
                                  rw [Option.some.injEq] at hcon
                                  norm_num at hcon

/-- C3 counterexample: `jitter([1])` is not the documented sentinel `0`; it is
`average` of the empty difference list, i.e. `0 / 0` = NaN (modelled `none`). -/
theorem C3_jitter_singleton_is_nan :
    jitter? [(1 : ℚ)] = none ∧ jitter? [(1 : ℚ)] ≠ some 0 := by
  constructor
  · rfl
  · intro h
    rw [show jitter? [(1 : ℚ)] = none from rfl] at h
    exact Option.noConfusion h

/-- C10: `median` and `quartile` mutate their argument in place: the array
state after either call is the ascending sort of the caller's array (a sorted
permutation of it), and on `[3, 1, 2]` this post-state `[1, 2, 3]` differs
from the input, so the sort is observable by the caller. -/
theorem C10_sort_in_place :
    (∀ values : List ℚ, (medianSt values).2 = sortAsc values ∧
      ∀ q : ℚ, (quartileSt values q).2 = sortAsc values) ∧
    (∀ values : List ℚ, (sortAsc values).Perm values ∧ (sortAsc values).Sorted (· ≤ ·)) ∧
    (medianSt [3, 1, 2]).2 = [1, 2, 3] ∧ (medianSt [3, 1, 2]).2 ≠ [3, 1, 2] := by
  exact ⟨fun values => ⟨rfl, fun q => rfl⟩,
    fun values => ⟨sortAsc_perm values, sortAsc_sorted values⟩, by decide, by decide⟩

/-- C3 (amended): for sequences of two or more samples, jitter is the
arithmetic mean of the absolute consecutive differences (in particular
`jitter([5,5,5]) = 0` and `jitter([1,3]) = 2`); for fewer than two samples
there are no difference samples and jitter is the average of an empty
sequence, i.e. NaN (`none`), not `0`. -/
theorem C3_jitter_mean_of_consecutive_diffs :
    (∀ xs : List ℚ, 2 ≤ xs.length →
      jitter? xs = some ((((List.range (xs.length - 1)).map
        (fun i => |xs.getD i 0 - xs.getD (i + 1) 0|)).sum) / ((xs.length - 1 : ℕ) : ℚ))) ∧
    (∀ xs : List ℚ, xs.length < 2 → jitter? xs = none) ∧
    jitter? [5, 5, 5] = some 0 ∧ jitter? [1, 3] = some 2 := by
  refine ⟨?_, ?_, ?_, ?_⟩
  · intro xs h2
    rw [jitter?, jitters_eq_range xs, average?]
    rw [List.length_map, List.length_range]
    rw [if_neg (by omega)]
  · intro xs h2
    rw [jitter?, jitters_eq_range xs, show xs.length - 1 = 0 by omega]
    rfl
  · norm_num [jitter?, average?, jitters]
  · norm_num [jitter?, average?, jitters]

/-- Witness for C3: the amended statement evaluated at `[1, 3]`. -/
theorem C3_jitter_mean_witness :
    2 ≤ ([1, 3] : List ℚ).length ∧
    jitter? [1, 3] = some ((((List.range (([1, 3] : List ℚ).length - 1)).map
      (fun i => |([1, 3] : List ℚ).getD i 0 - ([1, 3] : List ℚ).getD (i + 1) 0|)).sum) /
        ((([1, 3] : List ℚ).length - 1 : ℕ) : ℚ)) :=
  ⟨by decide, C3_jitter_mean_of_consecutive_diffs.1 [1, 3] (by decide)⟩

/-- C4: `quartile` implements the linear quantile method exactly as the claim
states it for every non-empty series and `q ∈ [0, 1]`, and in particular
`quartile([10,20,30,40,50], 0.9) = 46` and `quartile([1,2,3,4], 0.5) = 2.5`. -/
theorem C4_quartile_linear_method :
    (∀ (xs : List ℚ) (q : ℚ), xs ≠ [] → 0 ≤ q → q ≤ 1 →
      quartile xs q = quartileLinearSpec xs q) ∧
    quartile [10, 20, 30, 40, 50] (9 / 10) = 46 ∧
    quartile [1, 2, 3, 4] (1 / 2) = 5 / 2 := by
  refine ⟨?_, ?_, ?_⟩
  · intro xs q hne hq0 hq1
    have hn : 0 < xs.length := List.length_pos.mpr hne
    have hn1 : (1 : ℚ) ≤ (xs.length : ℚ) := by exact_mod_cast hn
    simp only [quartile, quartileSt, quartileLinearSpec, sortAsc_length]
    set pos : ℚ := ((xs.length : ℚ) - 1) * q with hpos
    have hpos0 : 0 ≤ pos := mul_nonneg (by linarith) hq0
    have hposle : pos ≤ (xs.length : ℚ) - 1 := by
      calc pos ≤ ((xs.length : ℚ) - 1) * 1 :=
            mul_le_mul_of_nonneg_left hq1 (by linarith)
        _ = (xs.length : ℚ) - 1 := mul_one _
    have hb0 : 0 ≤ ⌊pos⌋ := Int.floor_nonneg.mpr hpos0
    have hble : ⌊pos⌋ ≤ (xs.length : ℤ) - 1 := by
      have hmono : ⌊pos⌋ ≤ ⌊((xs.length : ℚ) - 1)⌋ := Int.floor_le_floor hposle
      rwa [show ((xs.length : ℚ) - 1) = (((xs.length : ℤ) - 1 : ℤ) : ℚ) by push_cast; ring,
        Int.floor_intCast] at hmono
    by_cases hlast : ⌊pos⌋ = (xs.length : ℤ) - 1
    · rw [if_neg (by omega : ¬(0 ≤ ⌊pos⌋ + 1 ∧ ⌊pos⌋ + 1 < (xs.length : ℤ))),
        if_pos (by omega : ⌊pos⌋.toNat = xs.length - 1)]
    · rw [if_pos (by omega : 0 ≤ ⌊pos⌋ + 1 ∧ ⌊pos⌋ + 1 < (xs.length : ℤ)),
        if_neg (by omega : ¬⌊pos⌋.toNat = xs.length - 1),
        show (⌊pos⌋ + 1).toNat = ⌊pos⌋.toNat + 1 by omega]
  · norm_num [quartile, quartileSt, sortAsc, List.insertionSort, List.orderedInsert, List.getD]
    simp only [show (3 : ℤ).toNat = 3 from rfl, show (4 : ℤ).toNat = 4 from rfl]
    norm_num
  · norm_num [quartile, quartileSt, sortAsc, List.insertionSort, List.orderedInsert, List.getD]
    simp only [show (1 : ℤ).toNat = 1 from rfl, show (2 : ℤ).toNat = 2 from rfl]
    norm_num

/-- Witness for C4: the general linear-method equality applied at
`[10, 20, 30, 40, 50]` with `q = 1`. -/
theorem C4_quartile_linear_method_witness :
    (([10, 20, 30, 40, 50] : List ℚ) ≠ [] ∧ (0 : ℚ) ≤ 1 ∧ (1 : ℚ) ≤ 1) ∧
    quartile [10, 20, 30, 40, 50] 1 = quartileLinearSpec [10, 20, 30, 40, 50] 1 :=
  ⟨⟨by decide, by decide, by decide⟩,
    C4_quartile_linear_method.1 [10, 20, 30, 40, 50] 1 (by decide) (by decide) (by decide)⟩

/-- C5: for every non-empty series, `quartile(xs, 0)` is the minimum of `xs`
and `quartile(xs, 1)` is the maximum; at `q = 1` (where `base` is the final
index `n - 1` and no index `base + 1` exists) the result is the in-bounds
last element of the sorted series. -/
theorem C5_quartile_min_max :
    ∀ xs : List ℚ, xs ≠ [] →
      (quartile xs 0 ∈ xs ∧ ∀ x ∈ xs, quartile xs 0 ≤ x) ∧
      (quartile xs 1 ∈ xs ∧ ∀ x ∈ xs, x ≤ quartile xs 1) ∧
      quartile xs 1 = (sortAsc xs).getD (xs.length - 1) 0 := by
  intro xs hne
  have hn : 0 < xs.length := List.length_pos.mpr hne
  have hslen : 0 < (sortAsc xs).length := by rwa [sortAsc_length]
  have hq0 := quartile_zero hne
  have hq1 := quartile_one hne
  refine ⟨⟨?_, ?_⟩, ⟨?_, ?_⟩, hq1⟩
  · rw [hq0]
    exact (sortAsc_perm xs).mem_iff.mp (getD_mem_of_lt hslen)
  · intro x hx
    rw [hq0]
    exact sorted_getD_zero_le (sortAsc_sorted xs) ((sortAsc_perm xs).mem_iff.mpr hx)
  · rw [hq1]
    have hlt : xs.length - 1 < (sortAsc xs).length := by rw [sortAsc_length]; omega
    exact (sortAsc_perm xs).mem_iff.mp (getD_mem_of_lt hlt)
  · intro x hx
    rw [hq1]
    have hx2 : x ∈ sortAsc xs := (sortAsc_perm xs).mem_iff.mpr hx
    have hmax := sorted_le_getD_last (sortAsc xs) (sortAsc_sorted xs) x hx2
    rwa [sortAsc_length] at hmax

/-- Witness for C5: the extremes property evaluated at `[10, 20, 30, 40, 50]`. -/
theorem C5_quartile_min_max_witness :
    ([10, 20, 30, 40, 50] : List ℚ) ≠ [] ∧
    quartile [10, 20, 30, 40, 50] 0 ∈ ([10, 20, 30, 40, 50] : List ℚ) :=
  ⟨by decide, (C5_quartile_min_max [10, 20, 30, 40, 50] (by decide)).1.1⟩

/-- C6: `median` returns the middle element of the sorted values for odd
length and the mean of the two middle sorted elements for even length; hence
`median([a]) = a`, `median([a,b]) = (a+b)/2`, and the median of any
permutation of the same multiset is the same. -/
theorem C6_median_sorted_middle :
    (∀ xs : List ℚ, xs ≠ [] →
      (xs.length % 2 = 1 → median xs = (sortAsc xs).getD ((xs.length - 1) / 2) 0) ∧
      (xs.length % 2 = 0 →
        median xs =
          ((sortAsc xs).getD (xs.length / 2 - 1) 0 + (sortAsc xs).getD (xs.length / 2) 0) / 2)) ∧
    (∀ a : ℚ, median [a] = a) ∧
    (∀ a b : ℚ, median [a, b] = (a + b) / 2) ∧
    (∀ xs ys : List ℚ, xs.Perm ys → median xs = median ys) := by
  refine ⟨?_, ?_, ?_, ?_⟩
  · intro xs hne
    constructor
    · intro hodd
      simp only [median, medianSt]
      rw [if_pos (by omega)]
      congr 1
      omega
    · intro heven
      simp only [median, medianSt]
      rw [if_neg (by omega)]
  · intro a
    simp [median, medianSt, sortAsc, List.insertionSort, List.orderedInsert]
  · intro a b
    by_cases hab : a ≤ b
    · simp [median, medianSt, sortAsc, List.insertionSort, List.orderedInsert, hab]
    · simp [median, medianSt, sortAsc, List.insertionSort, List.orderedInsert, hab]
      ring
  · intro xs ys h
    simp only [median, medianSt, sortAsc_eq_of_perm h, h.length_eq]

/-- Witness for C6: the odd-length middle-element property at `[3, 1, 2]` and
permutation invariance between `[3, 1, 2]` and `[1, 2, 3]`. -/
theorem C6_median_sorted_middle_witness :
    (([3, 1, 2] : List ℚ) ≠ [] ∧
      median [3, 1, 2] = (sortAsc [3, 1, 2]).getD ((([3, 1, 2] : List ℚ).length - 1) / 2) 0) ∧
    (([3, 1, 2] : List ℚ).Perm [1, 2, 3] ∧ median [3, 1, 2] = median [1, 2, 3]) :=
  ⟨⟨by decide, ((C6_median_sorted_middle.1 [3, 1, 2] (by decide)).1 (by decide))⟩,
    ⟨by decide, C6_median_sorted_middle.2.2.2 [3, 1, 2] [1, 2, 3] (by decide)⟩⟩

/-- C7: `measureLatency`'s per-request sample is
`firstByte - start - serverProcessingMs`; when all 100 iterations succeed with
`firstByte - start = 52` ms and a server-reported processing time of 2 ms,
every collected sample is 50, the median of the series is 50 and its jitter
mean is 0. -/
theorem C7_latency_sample_formula :
    (∀ r : TimingRecord, latencySample r = r.ttfb - r.started - r.serverTiming) ∧
    ∀ outcomes : List (Option TimingRecord),
      outcomes.length = 100 →
      (∀ o ∈ outcomes, ∃ r, o = some r ∧ r.ttfb - r.started = 52 ∧ r.serverTiming = 2) →
      (∀ s ∈ measureLatencySeries outcomes, s = 50) ∧
      median (measureLatencySeries outcomes) = 50 ∧
      jitter? (measureLatencySeries outcomes) = some 0 := by
  refine ⟨fun r => rfl, ?_⟩
  intro outcomes hlen hall
  have hser : measureLatencySeries outcomes = List.replicate 100 50 := by
    rw [measureLatencySeries, collectSamples_const latencySample 50 outcomes ?_, hlen]
    intro o ho
    obtain ⟨r, rfl, h1, h2⟩ := hall o ho
    refine ⟨r, rfl, ?_⟩
    rw [latencySample, h2]
    linarith
  refine ⟨?_, ?_, ?_⟩
  · intro s hs
    rw [hser] at hs
    exact List.eq_of_mem_replicate hs
  · rw [hser]
    exact median_replicate (by norm_num) 50
  · rw [hser, jitter?, jitters_replicate 50 100]
    exact average?_replicate_zero (by norm_num)

/-- Witness for C7: the scenario of 100 identical successful iterations. -/
theorem C7_latency_sample_formula_witness :
    latencyScenario.length = 100 ∧
    median (measureLatencySeries latencyScenario) = 50 ∧
    jitter? (measureLatencySeries latencyScenario) = some 0 := by
  have h := C7_latency_sample_formula.2 latencyScenario (by simp [latencyScenario])
    (by
      intro o ho
      simp only [latencyScenario] at ho
      have ho2 := List.eq_of_mem_replicate ho
      exact ⟨_, ho2, by norm_num, rfl⟩)
  exact ⟨by simp [latencyScenario], h.2.1, h.2.2⟩

/-- C8: the upload driver's throughput sample is
`measureSpeed(byteSize, serverProcessingMs) = byteSize*8 / (ms/1000) / 1e6`,
computed from the server-reported processing time of the timing record; it
does not depend on any wall-clock phase timestamps of the record. -/
theorem C8_upload_throughput_formula :
    (∀ bytes duration : ℚ,
      measureSpeed bytes duration = bytes * 8 / (duration / 1000) / 1000000) ∧
    (∀ (bytes : ℚ) (outcomes : List (Option TimingRecord)),
      measureUpload bytes outcomes =
        (outcomes.filterMap id).map (fun r => measureSpeed bytes r.serverTiming)) ∧
    (∀ (bytes : ℚ) (r₁ r₂ : TimingRecord), r₁.serverTiming = r₂.serverTiming →
      uploadSample bytes r₁ = uploadSample bytes r₂) := by
  refine ⟨fun bytes duration => rfl, ?_, ?_⟩
  · intro bytes outcomes
    exact collectSamples_eq_filterMap (uploadSample bytes) outcomes
  · intro bytes r₁ r₂ h
    simp [uploadSample, h]

/-- Witness for C8: two records with equal server-reported processing time but
different wall-clock timestamps give the same upload sample. -/
theorem C8_upload_throughput_formula_witness :
    ((⟨0, none, none, none, 10, 500, 40⟩ : TimingRecord).serverTiming =
      (⟨3, none, none, none, 4, 7, 40⟩ : TimingRecord).serverTiming) ∧
    uploadSample 11000 ⟨0, none, none, none, 10, 500, 40⟩ =
      uploadSample 11000 ⟨3, none, none, none, 4, 7, 40⟩ :=
  ⟨rfl, C8_upload_throughput_formula.2.2 11000 ⟨0, none, none, none, 10, 500, 40⟩
    ⟨3, none, none, none, 4, 7, 40⟩ rfl⟩

/-- C9: each driver is a sequential loop over its iteration outcomes in which
every success appends exactly one sample and every failure is skipped: the
returned series is exactly the successful samples in order, its length is the
number of successes, and 10 iterations with 3 failures yield a series of
length 7. -/
theorem C9_driver_skips_failures :
    (∀ (bytes : ℚ) (outcomes : List (Option TimingRecord)),
      measureDownload bytes outcomes = (outcomes.filterMap id).map (downloadSample bytes) ∧
      measureUpload bytes outcomes = (outcomes.filterMap id).map (uploadSample bytes) ∧
      (measureDownload bytes outcomes).length = outcomes.countP (fun o => o.isSome) ∧
      (measureUpload bytes outcomes).length = outcomes.countP (fun o => o.isSome)) ∧
    (∀ (bytes : ℚ) (outcomes : List (Option TimingRecord)),
      outcomes.length = 10 → outcomes.countP (fun o => o.isNone) = 3 →
      (measureDownload bytes outcomes).length = 7 ∧
      (measureUpload bytes outcomes).length = 7) := by
  have hlen : ∀ (f : TimingRecord → ℚ) (outcomes : List (Option TimingRecord)),
      (collectSamples f outcomes).length = outcomes.countP (fun o => o.isSome) := by
    intro f outcomes
    rw [collectSamples_eq_filterMap, List.length_map, length_filterMap_id]
  refine ⟨?_, ?_⟩
  · intro bytes outcomes
    exact ⟨collectSamples_eq_filterMap _ outcomes, collectSamples_eq_filterMap _ outcomes,
      hlen _ outcomes, hlen _ outcomes⟩
  · intro bytes outcomes h10 h3
    have hsum := countP_isSome_add_isNone outcomes
    have h7 : outcomes.countP (fun o => o.isSome) = 7 := by omega
    rw [measureDownload, measureUpload, hlen _ outcomes, hlen _ outcomes]
    exact ⟨h7, h7⟩

/-- Witness for C9: ten concrete iteration outcomes of which three fail give
seven-sample series. -/
theorem C9_driver_skips_failures_witness :
    (mixedOutcomes.length = 10 ∧ mixedOutcomes.countP (fun o => o.isNone) = 3) ∧
    (measureDownload 101000 mixedOutcomes).length = 7 ∧
    (measureUpload 11000 mixedOutcomes).length = 7 :=
  ⟨⟨by decide, by decide⟩,
    (C9_driver_skips_failures.2 101000 mixedOutcomes (by decide) (by decide)).1,
    (C9_driver_skips_failures.2 11000 mixedOutcomes (by decide) (by decide)).2⟩

end SpeedTest
